import Mathlib

set_option maxHeartbeats 1000000
set_option maxRecDepth 100000

/-!
Shallow embedding of the core of the llm-code-reviewer repository:
the diff-line sampler and response-parsing cascade of
`reviewer/worker.py` and the virtual-diff synthesizer of
`reviewer/repo_scanner.py`, together with theorems settling the
frozen claims about them.
-/

namespace LlmReviewer

/-! ### Python-style character and string helpers -/

/-- ASCII whitespace as treated by `str.strip`, `re.sub(r"\s+", ...)`
and related operations in the source (space, tab, newline, carriage
return, vertical tab, form feed). -/
def isPyWhitespace (c : Char) : Bool :=
  c = ' ' || c = '\t' || c = '\n' || c = '\r' || c = '\x0b' || c = '\x0c'

/-- Whitespace skipped by the JSON decoder (`json.loads`): space, tab,
newline, carriage return. -/
def isJsonWs (c : Char) : Bool :=
  c = ' ' || c = '\t' || c = '\n' || c = '\r'

/-- Python `str.strip()` (restricted to the ASCII whitespace above). -/
def pyStrip (s : String) : String :=
  String.mk (((s.data.dropWhile isPyWhitespace).reverse.dropWhile isPyWhitespace).reverse)

/-- Python `str.lower()` restricted to ASCII letters (all keyword
tables in the source are ASCII or Chinese, which `lower` leaves
unchanged). -/
def pyLowerChar (c : Char) : Char :=
  if 'A' ≤ c && c ≤ 'Z' then Char.ofNat (c.toNat + 32) else c

def pyLower (s : String) : String :=
  String.mk (s.data.map pyLowerChar)

/-- Python substring membership `pat in hay` for strings. -/
def strContains (hay pat : String) : Bool :=
  hay.data.tails.any (fun t => pat.data.isPrefixOf t)

/-- Worker loop for `pySplitOn`; fuel bounds the step count. -/
def pySplitOnGo (sep : List Char) : Nat → List Char → List Char → List String
  | 0, cs, acc => [String.mk (acc.reverse ++ cs)]
  | fuel + 1, cs, acc =>
    if sep.isPrefixOf cs then
      String.mk acc.reverse :: pySplitOnGo sep fuel (cs.drop sep.length) []
    else
      match cs with
      | [] => [String.mk acc.reverse]
      | c :: rest => pySplitOnGo sep fuel rest (c :: acc)

/-- Python `str.split(sep)` with a non-empty separator: split on
every occurrence, keeping empty pieces. -/
def pySplitOn (s : String) (sep : String) : List String :=
  if sep.data.isEmpty then [s]
  else pySplitOnGo sep.data (s.data.length + 1) s.data []

/-- Python `list.insert(i, x)`: inserts before index `i`, appending
when `i` is past the end. -/
def pyInsertAt {α : Type} : Nat → α → List α → List α
  | 0, a, l => a :: l
  | _ + 1, a, [] => [a]
  | n + 1, a, x :: xs => x :: pyInsertAt n a xs

/-- Python `str.splitlines()` on the common line boundaries
(`\n`, `\r`, `\r\n`, vertical tab, form feed, and the
file/group/record separators). -/
def isLineBoundary (c : Char) : Bool :=
  c = '\n' || c = '\r' || c = '\x0b' || c = '\x0c' ||
  c = '\x1c' || c = '\x1d' || c = '\x1e' || c = '\x85' ||
  c = '\u2028' || c = '\u2029'

def pySplitlinesGo : List Char → List Char → List String
  | [], acc => if acc.isEmpty then [] else [String.mk acc.reverse]
  | '\r' :: '\n' :: rest, acc => String.mk acc.reverse :: pySplitlinesGo rest []
  | c :: rest, acc =>
    if isLineBoundary c then String.mk acc.reverse :: pySplitlinesGo rest []
    else pySplitlinesGo rest (c :: acc)

def pySplitlines (s : String) : List String :=
  pySplitlinesGo s.data []

/-! ### JSON values and a model of `json.loads` -/

/-- Values produced by `json.loads`.  Decimal/exponent number literals
are kept exactly as `fnum m e` (value `m * 10 ^ e`); the NaN/Infinity
extensions are not modelled. -/
inductive JValue where
  | null
  | bool (b : Bool)
  | num (n : Int)
  | fnum (mant : Int) (ex : Int)
  | str (s : String)
  | arr (elems : List JValue)
  | obj (fields : List (String × JValue))
deriving Repr

/-- Value of one hexadecimal digit (0-9, a-f, A-F). -/
def hexVal (c : Char) : Option Nat :=
  let n := c.toNat
  if 48 ≤ n && n ≤ 57 then some (n - 48)
  else if 97 ≤ n && n ≤ 102 then some (n - 87)
  else if 65 ≤ n && n ≤ 70 then some (n - 55)
  else none

/-- JSON string body after the opening quote; returns the decoded
characters and the remainder after the closing quote.  Control
characters are rejected (`strict=True`). -/
def parseJsonStringChars : List Char → Option (List Char × List Char)
  | [] => none
  | c :: cs =>
    if c = '"' then some ([], cs)
    else if c = '\\' then
      match cs with
      | [] => none
      | e :: cs2 =>
        let simple : Option Char :=
          if e = '"' then some '"'
          else if e = '\\' then some '\\'
          else if e = '/' then some '/'
          else if e = 'b' then some '\x08'
          else if e = 'f' then some '\x0c'
          else if e = 'n' then some '\n'
          else if e = 'r' then some '\r'
          else if e = 't' then some '\t'
          else none
        match simple with
        | some ch => (parseJsonStringChars cs2).map (fun p => (ch :: p.1, p.2))
        | none =>
          if e = 'u' then
            match cs2 with
            | h1 :: h2 :: h3 :: h4 :: cs3 =>
              match hexVal h1, hexVal h2, hexVal h3, hexVal h4 with
              | some a, some b, some c', some d =>
                let n := ((a * 16 + b) * 16 + c') * 16 + d
                (parseJsonStringChars cs3).map (fun p => (Char.ofNat n :: p.1, p.2))
              | _, _, _, _ => none
            | _ => none
          else none
    else if c.toNat < 32 then none
    else (parseJsonStringChars cs).map (fun p => (c :: p.1, p.2))

def digitsToNat (ds : List Char) : Nat :=
  ds.foldl (fun a c => 10 * a + (c.toNat - 48)) 0

/-- JSON number literal, mirroring the decoder regex
`-?(0|[1-9]\d*)(\.\d+)?([eE][+-]?\d+)?`: an ill-formed fraction or
exponent part is left unconsumed rather than failing. -/
def parseJsonNumber (cs : List Char) : Option (JValue × List Char) :=
  let signSplit : Bool × List Char :=
    match cs with
    | '-' :: r => (true, r)
    | _ => (false, cs)
  let neg := signSplit.1
  let cs1 := signSplit.2
  let intDigits := cs1.takeWhile Char.isDigit
  let restInt := cs1.dropWhile Char.isDigit
  if intDigits.isEmpty then none
  else if 1 < intDigits.length && intDigits.head? = some '0' then none
  else
    let fracSplit : List Char × List Char :=
      match restInt with
      | '.' :: r =>
        let f := r.takeWhile Char.isDigit
        if f.isEmpty then ([], restInt) else (f, r.dropWhile Char.isDigit)
      | _ => ([], restInt)
    let fd := fracSplit.1
    let rest2 := fracSplit.2
    let expSplit : Option Int × List Char :=
      match rest2 with
      | e :: r =>
        if e = 'e' || e = 'E' then
          match r with
          | s :: r2 =>
            if s = '+' || s = '-' then
              let ds := r2.takeWhile Char.isDigit
              if ds.isEmpty then (none, rest2)
              else (some (if s = '-' then -(digitsToNat ds : Int) else (digitsToNat ds : Int)),
                    r2.dropWhile Char.isDigit)
            else
              let ds := r.takeWhile Char.isDigit
              if ds.isEmpty then (none, rest2)
              else (some (digitsToNat ds : Int), r.dropWhile Char.isDigit)
          | [] => (none, rest2)
        else (none, rest2)
      | [] => (none, rest2)
    let expOpt := expSplit.1
    let rest3 := expSplit.2
    let applySign : Int → Int := fun v => if neg then -v else v
    if fd.isEmpty && expOpt = none then
      some (JValue.num (applySign (digitsToNat intDigits)), rest3)
    else
      some (JValue.fnum (applySign (digitsToNat (intDigits ++ fd)))
              (expOpt.getD 0 - (fd.length : Int)), rest3)

/-- Replace-or-append insertion used to give parsed objects Python
dict semantics (unique keys, insertion order, last value wins). -/
def objInsert : List (String × JValue) → String → JValue → List (String × JValue)
  | [], k, v => [(k, v)]
  | (k0, v0) :: rest, k, v =>
    if k0 = k then (k0, v) :: rest else (k0, v0) :: objInsert rest k v

mutual

def parseJsonValue : Nat → List Char → Option (JValue × List Char)
  | 0, _ => none
  | fuel + 1, cs0 =>
    let cs := cs0.dropWhile isJsonWs
    match cs with
    | '\x7b' :: r =>
      (match r.dropWhile isJsonWs with
       | '\x7d' :: rr => some (JValue.obj [], rr)
       | _ => parseJsonMembers fuel r [])
    | '[' :: r =>
      (match r.dropWhile isJsonWs with
       | ']' :: rr => some (JValue.arr [], rr)
       | _ => parseJsonElems fuel r [])
    | '"' :: r => (parseJsonStringChars r).map (fun p => (JValue.str (String.mk p.1), p.2))
    | 't' :: 'r' :: 'u' :: 'e' :: r => some (JValue.bool true, r)
    | 'f' :: 'a' :: 'l' :: 's' :: 'e' :: r => some (JValue.bool false, r)
    | 'n' :: 'u' :: 'l' :: 'l' :: r => some (JValue.null, r)
    | _ => parseJsonNumber cs

def parseJsonElems : Nat → List Char → List JValue → Option (JValue × List Char)
  | 0, _, _ => none
  | fuel + 1, cs, acc =>
    match parseJsonValue fuel cs with
    | none => none
    | some (v, rest) =>
      match rest.dropWhile isJsonWs with
      | ',' :: r2 => parseJsonElems fuel r2 (v :: acc)
      | ']' :: r2 => some (JValue.arr (v :: acc).reverse, r2)
      | _ => none

def parseJsonMembers : Nat → List Char → List (String × JValue) →
    Option (JValue × List Char)
  | 0, _, _ => none
  | fuel + 1, cs, acc =>
    match cs.dropWhile isJsonWs with
    | '"' :: r =>
      (match parseJsonStringChars r with
       | none => none
       | some (kcs, r2) =>
         match r2.dropWhile isJsonWs with
         | ':' :: r3 =>
           (match parseJsonValue fuel r3 with
            | none => none
            | some (v, r4) =>
              let acc2 := objInsert acc (String.mk kcs) v
              match r4.dropWhile isJsonWs with
              | ',' :: r5 => parseJsonMembers fuel r5 acc2
              | '\x7d' :: r5 => some (JValue.obj acc2, r5)
              | _ => none)
         | _ => none)
    | _ => none

end

/-- Python exceptions relevant to the parsing cascade.
`JSONDecodeError` is a subclass of `ValueError`. -/
inductive PyExc where
  | jsonDecodeError (msg : String)
  | valueError (msg : String)
  | typeError (msg : String)
  | attributeError (msg : String)
  | keyError (msg : String)
deriving Repr

/-- Model of `json.loads` on a string. -/
def jsonLoads (s : String) : Except PyExc JValue :=
  match parseJsonValue (s.length * 2 + 8) s.data with
  | some (v, rest) =>
    if (rest.dropWhile isJsonWs).isEmpty then Except.ok v
    else Except.error (PyExc.jsonDecodeError "Extra data")
  | none => Except.error (PyExc.jsonDecodeError "Expecting value")

/-! ### Data model (`models.py` is not among the provided sources) -/

/-- Modelled from the spec: `models.py` is missing from the provided
sources.  The spec fixes the ordered severity set
{CRITICAL, HIGH, MEDIUM, LOW}; the enum value strings
("Critical", "High", "Medium", "Low") are fixed by the spec examples
(`severity: "High"`). -/
inductive SeverityLevel where
  | critical
  | high
  | medium
  | low
deriving DecidableEq, Repr

/-- Rank in the spec ordering CRITICAL > HIGH > MEDIUM > LOW. -/
def sevRank : SeverityLevel → Nat
  | .critical => 3
  | .high => 2
  | .medium => 1
  | .low => 0

/-- Review categories, with exactly the members referenced by
`worker.py` (the enum itself lives in the missing `models.py`). -/
inductive CodeReviewCategory where
  | functionality
  | robustness
  | tests
  | design
  | abstractions
  | consistency
  | readability
  | codingStyle
  | naming
deriving DecidableEq, Repr

/-- Modelled from the spec: the `.value` strings of the category enum
(missing `models.py`); they surface only inside synthesized comment
texts. -/
def categoryValue : CodeReviewCategory → String
  | .functionality => "Functionality"
  | .robustness => "Robustness"
  | .tests => "Tests"
  | .design => "Design"
  | .abstractions => "Abstractions"
  | .consistency => "Consistency"
  | .readability => "Readability"
  | .codingStyle => "Coding Style"
  | .naming => "Naming"

/-- `CodeReviewComment` as constructed throughout `worker.py`:
category, optional normalized file path, optional line number, text,
severity, optional example code (kept as the raw JSON value). -/
structure CodeReviewComment where
  category : CodeReviewCategory
  file_name : Option String := none
  line_number : Option Int := none
  comment : String
  severity : SeverityLevel
  example_code : Option JValue := none
deriving Repr

/-- Python truthiness of a parsed JSON value. -/
def jTruthy : JValue → Bool
  | .null => false
  | .bool b => b
  | .num n => n ≠ 0
  | .fnum m _ => m ≠ 0
  | .str s => s ≠ ""
  | .arr xs => ¬ xs.isEmpty
  | .obj fs => ¬ fs.isEmpty

def lookupField : List (String × JValue) → String → Option JValue
  | [], _ => none
  | (k0, v0) :: rest, k => if k0 = k then some v0 else lookupField rest k

/-- Python `key in value`: key membership for dicts, substring test
for strings, element membership for lists; `TypeError` (`none`) for
other values. -/
def jHasK : JValue → String → Option Bool
  | .obj fs, k => some ((lookupField fs k).isSome)
  | .str s, k => some (strContains s k)
  | .arr xs, k =>
    some (xs.any (fun x => match x with | .str s => s = k | _ => false))
  | _, _ => none

/-- Python `value[key]` with a string key. -/
def jIndexK : JValue → String → Except PyExc JValue
  | .obj fs, k =>
    (match lookupField fs k with
     | some v => Except.ok v
     | none => Except.error (PyExc.keyError k))
  | .str _, _ => Except.error (PyExc.typeError "string indices must be integers")
  | .arr _, _ => Except.error (PyExc.typeError "list indices must be integers")
  | _, _ => Except.error (PyExc.typeError "object is not subscriptable")

/-- Python `for item in value`: list elements, dict keys, characters
of a string; `TypeError` otherwise. -/
def jIter : JValue → Except PyExc (List JValue)
  | .arr xs => Except.ok xs
  | .obj fs => Except.ok (fs.map (fun kv => JValue.str kv.1))
  | .str s => Except.ok (s.data.map (fun c => JValue.str (String.mk [c])))
  | _ => Except.error (PyExc.typeError "object is not iterable")

mutual

/-- Best-effort Python `repr` of a parsed JSON value (surfaces only
inside f-string interpolation of non-string fields). -/
def pyReprJ : JValue → String
  | .null => "None"
  | .bool b => if b then "True" else "False"
  | .num n => toString n
  | .fnum m e => toString m ++ "e" ++ toString e
  | .str s => "\x27" ++ s ++ "\x27"
  | .arr xs => "[" ++ String.intercalate ", " (pyReprList xs) ++ "]"
  | .obj fs => "\x7b" ++ String.intercalate ", " (pyReprFields fs) ++ "\x7d"

def pyReprList : List JValue → List String
  | [] => []
  | v :: vs => pyReprJ v :: pyReprList vs

def pyReprFields : List (String × JValue) → List String
  | [] => []
  | (k, v) :: fs => ("\x27" ++ k ++ "\x27: " ++ pyReprJ v) :: pyReprFields fs

end

/-- Python `str()` of a parsed JSON value. -/
def pyStr : JValue → String
  | .str s => s
  | v => pyReprJ v

def pyIntOfString (s : String) : Except PyExc Int :=
  let t := ((s.data.dropWhile isPyWhitespace).reverse.dropWhile isPyWhitespace).reverse
  let fromDigits : List Char → Bool → Except PyExc Int := fun ds neg =>
    if ds.isEmpty || ¬ ds.all Char.isDigit then
      Except.error (PyExc.valueError "invalid literal for int() with base 10")
    else
      Except.ok (if neg then -(digitsToNat ds : Int) else (digitsToNat ds : Int))
  match t with
  | '-' :: ds => fromDigits ds true
  | '+' :: ds => fromDigits ds false
  | ds => fromDigits ds false

/-- Truncation toward zero of `m * 10 ^ e` (`int()` of a float). -/
def truncPow10 (m : Int) (e : Int) : Int :=
  if 0 ≤ e then m * (10 : Int) ^ e.toNat
  else Int.sign m * ((m.natAbs / 10 ^ (-e).toNat : Nat) : Int)

/-- Python `int(x)` on a parsed JSON value. -/
def pyInt : JValue → Except PyExc Int
  | .num n => Except.ok n
  | .bool b => Except.ok (if b then 1 else 0)
  | .fnum m e => Except.ok (truncPow10 m e)
  | .str s => pyIntOfString s
  | .null => Except.error (PyExc.typeError "int() argument must not be NoneType")
  | .arr _ => Except.error (PyExc.typeError "int() argument must not be list")
  | .obj _ => Except.error (PyExc.typeError "int() argument must not be dict")

/-! ### Severity classification (`worker.py` lines 414-474) -/

/-- `CodeReviewWorker._get_default_severity_for_category`.  The
mapping covers every member, so the `.get` fallback to MEDIUM in the
source is unreachable. -/
def getDefaultSeverityForCategory : CodeReviewCategory → SeverityLevel
  | .functionality => .critical
  | .robustness => .high
  | .tests => .high
  | .design => .high
  | .abstractions => .medium
  | .consistency => .medium
  | .readability => .low
  | .codingStyle => .low
  | .naming => .low

def critical_keywords : List String :=
  ["security", "vulnerability", "sql injection", "xss", "csrf",
   "memory leak", "null pointer", "crash", "data loss", "corruption"]

def high_keywords : List String :=
  ["performance", "bottleneck", "slow", "inefficient", "resource leak",
   "missing error handling", "exception not handled", "major design flaw"]

def low_keywords : List String :=
  ["variable name", "method name", "rename", "more descriptive",
   "consider renaming", "cosmetic", "minor", "suggestion"]

/-- `CodeReviewWorker._adjust_severity_based_on_content`. -/
def adjustSeverityBasedOnContent (category : CodeReviewCategory)
    (comment_text : String) (default_severity : SeverityLevel) : SeverityLevel :=
  let comment_lower := pyLower comment_text
  if critical_keywords.any (fun k => strContains comment_lower k) then
    SeverityLevel.critical
  else if high_keywords.any (fun k => strContains comment_lower k) then
    SeverityLevel.high
  else if category = CodeReviewCategory.naming ||
          category = CodeReviewCategory.readability then
    if low_keywords.any (fun k => strContains comment_lower k) then
      SeverityLevel.low
    else if default_severity = SeverityLevel.high then
      SeverityLevel.medium
    else default_severity
  else default_severity

/-- `SeverityLevel(x)` enum lookup by value: a non-member hashable
value raises `ValueError`, which the only call site catches and folds
to MEDIUM (folded in here); an unhashable value raises an uncaught
`TypeError`. -/
def resolveSeverityValue : JValue → Except PyExc SeverityLevel
  | .str "Critical" => Except.ok .critical
  | .str "High" => Except.ok .high
  | .str "Medium" => Except.ok .medium
  | .str "Low" => Except.ok .low
  | .arr _ => Except.error (PyExc.typeError "unhashable type: list")
  | .obj _ => Except.error (PyExc.typeError "unhashable type: dict")
  | _ => Except.ok .medium

/-! ### `CodeReviewWorker.parse_comment` (worker.py lines 136-226) -/

/-- Comment-text resolution through the ordered synonym cascade
(`comment`, `issue`+`suggestion`, `description`+`improvement`,
`issue`, `description`, `problem`, `message`); `Except.ok none` is
the early `return None` when no key matches. -/
def resolveCommentText (d : JValue) : Except PyExc (Option JValue) :=
  match jHasK d "comment" with
  | none => Except.error (PyExc.typeError "argument of type is not iterable")
  | some hasComment =>
    let has := fun (k : String) => (jHasK d k).getD false
    if hasComment then (jIndexK d "comment").map some
    else if has "issue" && has "suggestion" then
      match jIndexK d "issue" with
      | Except.error e => Except.error e
      | Except.ok a =>
        match jIndexK d "suggestion" with
        | Except.error e => Except.error e
        | Except.ok b => Except.ok (some (JValue.str (pyStr a ++ " " ++ pyStr b)))
    else if has "description" && has "improvement" then
      match jIndexK d "description" with
      | Except.error e => Except.error e
      | Except.ok a =>
        match jIndexK d "improvement" with
        | Except.error e => Except.error e
        | Except.ok b => Except.ok (some (JValue.str (pyStr a ++ " " ++ pyStr b)))
    else if has "issue" then (jIndexK d "issue").map some
    else if has "description" then (jIndexK d "description").map some
    else if has "problem" then (jIndexK d "problem").map some
    else if has "message" then (jIndexK d "message").map some
    else Except.ok none

/-- File-path resolution (`file_name`, `file`, `filename`). -/
def resolveFileRaw (d : JValue) : Except PyExc (Option JValue) :=
  let has := fun (k : String) => (jHasK d k).getD false
  if has "file_name" then (jIndexK d "file_name").map some
  else if has "file" then (jIndexK d "file").map some
  else if has "filename" then (jIndexK d "filename").map some
  else Except.ok none

/-- Version-control-prefix normalization: a truthy string has a
leading `b/` stripped; a truthy non-string raises `AttributeError` at
`.startswith`; falsy values behave as absent in every later use. -/
def normalizeFileName : Option JValue → Except PyExc (Option String)
  | none => Except.ok none
  | some v =>
    if jTruthy v then
      match v with
      | JValue.str s =>
        Except.ok (some (if "b/".data.isPrefixOf s.data
          then String.mk (s.data.drop 2) else s))
      | _ => Except.error (PyExc.attributeError "startswith")
    else Except.ok none

/-- Line-number resolution (`line_number`, `line`). -/
def resolveRawLine (d : JValue) : Except PyExc (Option JValue) :=
  let has := fun (k : String) => (jHasK d k).getD false
  if has "line_number" then (jIndexK d "line_number").map some
  else if has "line" then (jIndexK d "line").map some
  else Except.ok none

/-- Example-code resolution (`example_code`, `example`,
`suggested_code`). -/
def resolveExampleCode (d : JValue) : Except PyExc (Option JValue) :=
  let has := fun (k : String) => (jHasK d k).getD false
  if has "example_code" then (jIndexK d "example_code").map some
  else if has "example" then (jIndexK d "example").map some
  else if has "suggested_code" then (jIndexK d "suggested_code").map some
  else Except.ok none

/-- The final guard of `parse_comment`
(`if not comment_text or not file_name: return None`) together with
the comment construction: the element is dropped unless both the
text and the (possibly prefix-stripped) file name are truthy. -/
def assembleComment (category : CodeReviewCategory) (textStr : String)
    (file_name : Option String) (line_number : Option Int)
    (severity : SeverityLevel) (example_code : Option JValue) :
    Option CodeReviewComment :=
  if textStr = "" || file_name.getD "" = "" then none
  else some { category := category, file_name := file_name,
              line_number := line_number, comment := textStr,
              severity := severity, example_code := example_code }

/-- `CodeReviewWorker.parse_comment`: `Except.ok none` when the
element is dropped, `Except.error` when a Python exception escapes
(caught by the caller). -/
def parse_comment (category : CodeReviewCategory) (comment_data : JValue) :
    Except PyExc (Option CodeReviewComment) :=
  match resolveCommentText comment_data with
  | Except.error e => Except.error e
  | Except.ok none => Except.ok none
  | Except.ok (some commentText) =>
    match resolveFileRaw comment_data with
    | Except.error e => Except.error e
    | Except.ok fileRaw =>
      match normalizeFileName fileRaw with
      | Except.error e => Except.error e
      | Except.ok file_name =>
        match resolveRawLine comment_data with
        | Except.error e => Except.error e
        | Except.ok rawLine =>
          let line_number : Option Int :=
            match rawLine with
            | some v => (pyInt v).toOption
            | none => none
          let sev0 : Except PyExc SeverityLevel :=
            match jHasK comment_data "severity" with
            | some true =>
              (match jIndexK comment_data "severity" with
               | Except.error e => Except.error e
               | Except.ok v => resolveSeverityValue v)
            | _ => Except.ok (getDefaultSeverityForCategory category)
          match sev0 with
          | Except.error e => Except.error e
          | Except.ok severity0 =>
            match commentText with
            | JValue.str textStr =>
              let severity := adjustSeverityBasedOnContent category textStr severity0
              match resolveExampleCode comment_data with
              | Except.error e => Except.error e
              | Except.ok example_code =>
                Except.ok (assembleComment category textStr file_name
                  line_number severity example_code)
            | _ => Except.error (PyExc.attributeError "lower")

/-! ### Regex models used by the cascade -/

def skipPyWs (cs : List Char) : List Char := cs.dropWhile isPyWhitespace

/-- Case-insensitive literal prefix match, returning the remainder. -/
def dropLiteralCI (pat : List Char) (cs : List Char) : Option (List Char) :=
  match pat, cs with
  | [], rest => some rest
  | _ :: _, [] => none
  | p :: ps, c :: rest =>
    if pyLowerChar c = pyLowerChar p then dropLiteralCI ps rest else none

/-- `\[\s*\]` at the head of the input, returning the remainder. -/
def dropEmptyArrayLit (cs : List Char) : Option (List Char) :=
  match cs with
  | '[' :: rest =>
    (match skipPyWs rest with
     | ']' :: rest2 => some rest2
     | _ => none)
  | _ => none

/-- `re.match` of `` ```(?:json)?\s*\[\s*\]\s*``` `` (IGNORECASE,
prefix match; backtracking over the optional `json`). -/
def matchFencedEmptyArray (s : String) : Bool :=
  let tryFrom : List Char → Bool := fun cs =>
    match dropEmptyArrayLit (skipPyWs cs) with
    | some rest =>
      (match dropLiteralCI ['`', '`', '`'] (skipPyWs rest) with
       | some _ => true
       | none => false)
    | none => false
  match dropLiteralCI ['`', '`', '`'] s.data with
  | some afterFence =>
    (match dropLiteralCI ['j', 's', 'o', 'n'] afterFence with
     | some afterJson => tryFrom afterJson || tryFrom afterFence
     | none => tryFrom afterFence)
  | none => false

/-- `re.match` of `` `\[\s*\]` `` (prefix match). -/
def matchTickedEmptyArray (s : String) : Bool :=
  match s.data with
  | '`' :: rest =>
    (match dropEmptyArrayLit rest with
     | some rest2 =>
       (match rest2 with
        | '`' :: _ => true
        | _ => false)
     | none => false)
  | _ => false

/-- Split at the first `]`, returning the characters before it and
the remainder after it. -/
def breakAtClose : List Char → Option (List Char × List Char)
  | [] => none
  | c :: cs =>
    if c = ']' then some ([], cs)
    else
      match breakAtClose cs with
      | some (b, a) => some (c :: b, a)
      | none => none

/-- Worker loop for `bracketSpans`; the fuel (initially the input
length) strictly bounds the number of steps, each of which consumes
at least one character, so it never runs out before the scan ends. -/
def bracketSpansGo : Nat → List Char → List String
  | 0, _ => []
  | _ + 1, [] => []
  | fuel + 1, c :: rest =>
    if c = '[' then
      match breakAtClose rest with
      | some (b, a) => String.mk ('[' :: b ++ [']']) :: bracketSpansGo fuel a
      | none => []
    else bracketSpansGo fuel rest

/-- `re.findall(r"\[.*?\]", s, re.DOTALL)`: non-greedy spans from
each `[` to the nearest following `]`. -/
def bracketSpans (cs : List Char) : List String :=
  bracketSpansGo cs.length cs

/-- Tail of a `re.search` for `\[\s*\{.*\}\s*\]` (greedy, DOTALL):
scanning the reversed remainder for the last `\}\s*\]`. -/
def findCloserRev : List Char → Option (List Char)
  | [] => none
  | c :: rest =>
    if c = ']' then
      match skipPyWs rest with
      | '\x7d' :: _ => some (c :: rest)
      | _ => findCloserRev rest
    else findCloserRev rest

/-- `re.search(r"\[\s*\x7b.*\x7d\s*\]", s, re.DOTALL)`: the leftmost
`[` followed (after whitespace) by `\x7b` such that a closing
`\x7d\s*\]` occurs later; greedy `.*` picks the last such closer. -/
def searchJsonArray : List Char → Option (List Char)
  | [] => none
  | c :: rest =>
    if c = '[' then
      let ws := rest.takeWhile isPyWhitespace
      match rest.dropWhile isPyWhitespace with
      | '\x7b' :: tail =>
        (match findCloserRev tail.reverse with
         | some revm => some ('[' :: ws ++ '\x7b' :: revm.reverse)
         | none => searchJsonArray rest)
      | _ => searchJsonArray rest
    else searchJsonArray rest

/-! ### The response-parsing cascade (`worker.py` lines 228-412) -/

/-- `CodeReviewWorker._is_empty_json_array`. -/
def isEmptyJsonArray (response_str : String) : Bool :=
  if pyStrip response_str = "" then true
  else
    let cleaned := String.mk ((pyStrip response_str).data.filter
      (fun c => ¬ isPyWhitespace c))
    if cleaned = "[]" then true
    else if matchFencedEmptyArray (pyStrip response_str) ||
            matchTickedEmptyArray (pyStrip response_str) then true
    else
      match jsonLoads (pyStrip response_str) with
      | Except.ok v => (match v with | JValue.arr [] => true | _ => false)
      | Except.error _ =>
        match bracketSpans response_str.data with
        | [a] =>
          (match jsonLoads a with
           | Except.ok v => (match v with | JValue.arr [] => true | _ => false)
           | Except.error _ => false)
        | _ => false

/-- Body of parsing strategy 1 (strict JSON extraction); errors are
the exceptions that the surrounding `try/except` absorbs, and
`Except.ok none` is the fall-through when the comment list is empty. -/
def strategy1Body (category : CodeReviewCategory) (response_str : String) :
    Except PyExc (Option (List CodeReviewComment)) :=
  let json_str :=
    match searchJsonArray response_str.data with
    | some span => String.mk span
    | none => response_str
  match jsonLoads json_str with
  | Except.error e => Except.error e
  | Except.ok comments_data =>
    match jIter comments_data with
    | Except.error e => Except.error e
    | Except.ok items =>
      match items.mapM (parse_comment category) with
      | Except.error e => Except.error e
      | Except.ok parsed =>
        let comments := parsed.filterMap id
        if comments.isEmpty then Except.ok none else Except.ok (some comments)

/-- Strategy 1 with its two `except` clauses (both fall through). -/
def strategy1 (category : CodeReviewCategory) (response_str : String) :
    Option (List CodeReviewComment) :=
  match strategy1Body category response_str with
  | Except.ok r => r
  | Except.error _ => none

def textKeywords : List String :=
  ["line", "行", "file", "文件", "function", "函数",
   "error", "错误", "issue", "问题", "warning", "警告",
   "security", "安全", "bug", "performance", "性能"]

def textHighKeywords : List String :=
  ["critical", "严重", "high", "高", "security", "安全"]

def textLowKeywords : List String :=
  ["low", "低", "minor", "轻微", "suggestion", "建议"]

/-- Python slice-truncation `s[:n] + "..." if len(s) > n else s`. -/
def truncateWithEllipsis (n : Nat) (s : String) : String :=
  if n < s.data.length then String.mk (s.data.take n) ++ "..." else s

/-- `CodeReviewWorker._parse_text_response` (strategy 2). -/
def parseTextResponse (category : CodeReviewCategory)
    (response_content : String) : List CodeReviewComment :=
  let paragraphs := ((pySplitOn response_content "\n\n").map pyStrip).filter
    (fun p => p ≠ "")
  let comments := paragraphs.filterMap (fun paragraph =>
    if textKeywords.any (fun k => strContains (pyLower paragraph) k) then
      let severity :=
        if textHighKeywords.any (fun k => strContains (pyLower paragraph) k) then
          SeverityLevel.high
        else if textLowKeywords.any (fun k => strContains (pyLower paragraph) k) then
          SeverityLevel.low
        else SeverityLevel.medium
      some { category := category,
             comment := truncateWithEllipsis 500 paragraph,
             severity := severity : CodeReviewComment }
    else none)
  comments.take 5

def summaryHighKeywords : List String :=
  ["error", "critical", "security", "vulnerability",
   "错误", "严重", "安全", "漏洞"]

def summaryMediumKeywords : List String :=
  ["warning", "issue", "problem", "concern", "警告", "问题", "关注"]

/-- `CodeReviewWorker._create_summary_comment` (strategy 3). -/
def createSummaryComment (category : CodeReviewCategory)
    (response_content : String) : CodeReviewComment :=
  let summary := truncateWithEllipsis 1000 response_content
  let severity :=
    if summaryHighKeywords.any (fun k => strContains (pyLower response_content) k) then
      SeverityLevel.high
    else if summaryMediumKeywords.any
        (fun k => strContains (pyLower response_content) k) then
      SeverityLevel.medium
    else SeverityLevel.low
  { category := category,
    comment := categoryValue category ++ " 审查摘要: " ++ summary,
    severity := severity }

/-- The synthesized comment for an empty LLM response. -/
def emptyResponseComment (category : CodeReviewCategory) : CodeReviewComment :=
  { category := category,
    comment := "LLM returned empty response. Please try again.",
    severity := SeverityLevel.medium }

/-- The absolute-fallback comment of the cascade. -/
def unableToParseComment (category : CodeReviewCategory) : CodeReviewComment :=
  { category := category,
    comment := "Unable to parse LLM response. Please check the model output format.",
    severity := SeverityLevel.medium }

/-- `CodeReviewWorker.parse_llm_response`: the full cascade.  The
result type is `Except` so that an unhandled Python exception would
show up as `Except.error`; the definition constructs only `Except.ok`
because every raisable step is wrapped by a handler in the source. -/
def parse_llm_response (category : CodeReviewCategory) (response : String) :
    Except PyExc (List CodeReviewComment) :=
  if pyStrip response = "" then Except.ok [emptyResponseComment category]
  else
    let response_str := pyStrip response
    if isEmptyJsonArray response_str then Except.ok []
    else
      match strategy1 category response_str with
      | some comments => Except.ok comments
      | none =>
        match parseTextResponse category response_str with
        | c :: cs => Except.ok (c :: cs)
        | [] =>
          match (Except.ok (createSummaryComment category response_str) :
              Except PyExc CodeReviewComment) with
          | Except.ok c => Except.ok [c]
          | Except.error _ => Except.ok [unableToParseComment category]

/-! ### Diff-review sampling (`worker.py` lines 43-97) -/

def MAX_CODE_LINES : Nat := 100

/-- An entry of the sampled list: an ordinary formatted code line, or
the single marker string
`"... (sampled \x7bMAX_CODE_LINES\x7d lines from \x7blen(formatted_code_lines)\x7d total) ..."`,
kept as its two interpolated numbers. -/
inductive SampledLine where
  | code (s : String)
  | marker (sampled : Nat) (total : Nat)
deriving DecidableEq, Repr

def isCodeEntry : SampledLine → Bool
  | .code _ => true
  | .marker _ _ => false

def isMarkerEntry : SampledLine → Bool
  | .code _ => false
  | .marker _ _ => true

/-- The sampling step of `CodeReviewWorker.get_sampled_code_lines`
in diff-review mode (`is_repo_scan = False`), applied to the
formatted added-line entries.  With `MAX_CODE_LINES = 100` the head
and tail each take `100 // 2 = 50` entries, so `middle_size` is `0`
and the evenly-spaced middle fill is dead code; it is modelled anyway
(with exact rational index arithmetic in place of Python floats). -/
def sampleLines (fmt : List SampledLine) : List SampledLine :=
  if MAX_CODE_LINES < fmt.length then
    let beginning := fmt.take (MAX_CODE_LINES / 2)
    let ending := fmt.drop (fmt.length - MAX_CODE_LINES / 2)
    let middle_size := MAX_CODE_LINES - beginning.length - ending.length
    let sampled :=
      if 0 < middle_size && beginning.length + ending.length < fmt.length then
        let middle_start := beginning.length
        let middle_end := fmt.length - ending.length
        let middle := (List.range middle_size).filterMap (fun i =>
          let idx := middle_start +
            (middle_end - middle_start) * (i + 1) / (middle_size + 1)
          if idx < middle_end then fmt.get? idx else none)
        beginning ++ middle ++ ending
      else
        beginning ++ ending
    pyInsertAt beginning.length
      (SampledLine.marker MAX_CODE_LINES sampled.length) sampled
  else fmt

/-- `CodeReviewWorker.get_sampled_code_lines` in diff-review mode,
from the already-extracted and formatted added-line entries. -/
def get_sampled_code_lines (formatted_code_lines : List String) : List SampledLine :=
  sampleLines (formatted_code_lines.map SampledLine.code)

/-! ### Virtual-diff synthesis (`repo_scanner.py` lines 296-376) -/

/-- Observable state of one file during the scan: missing from disk,
raising on open/read, or present with its contents. -/
inductive FileState where
  | missing
  | unreadable
  | content (text : String)

structure ScanStats where
  total_files_found : Nat
  processed_files : Nat
  skipped_files : Nat
  total_lines : Nat
deriving DecidableEq, Repr

/-- The synthetic per-file diff block emitted for a processed file. -/
def virtualDiffBlock (file_path : String) (lines : List String) : String :=
  "diff --git a/" ++ file_path ++ " b/" ++ file_path ++ "\n" ++
  "new file mode 100644\n" ++
  "index 0000000..aaaaaaa\n" ++
  "--- /dev/null\n" ++
  "+++ b/" ++ file_path ++ "\n" ++
  "@@ -0,0 +1," ++ toString lines.length ++ " @@\n" ++
  String.join (lines.map (fun l => "+" ++ l ++ "\n"))

/-- The scan loop of `RepoScanner.create_virtual_diff`: returns the
accumulated diff text with (processed, skipped, total_lines). -/
def virtualDiffGo (fs : String → FileState) : List String → String × Nat × Nat × Nat
  | [] => ("", 0, 0, 0)
  | file_path :: rest =>
    let r := virtualDiffGo fs rest
    match fs file_path with
    | FileState.missing => (r.1, r.2.1, r.2.2.1 + 1, r.2.2.2)
    | FileState.unreadable => (r.1, r.2.1, r.2.2.1 + 1, r.2.2.2)
    | FileState.content text =>
      if pyStrip text = "" then (r.1, r.2.1, r.2.2.1 + 1, r.2.2.2)
      else
        let lines := pySplitlines text
        if lines.isEmpty then (r.1, r.2.1, r.2.2.1 + 1, r.2.2.2)
        else (virtualDiffBlock file_path lines ++ r.1,
              r.2.1 + 1, r.2.2.1, r.2.2.2 + lines.length)

/-- `RepoScanner.create_virtual_diff` over an abstract filesystem. -/
def create_virtual_diff (fs : String → FileState) (files_to_scan : List String) :
    String × ScanStats :=
  let r := virtualDiffGo fs files_to_scan
  (r.1, { total_files_found := files_to_scan.length,
          processed_files := r.2.1,
          skipped_files := r.2.2.1,
          total_lines := r.2.2.2 })

/-! ### Model invocation with retry (`worker.py` lines 628-693) -/

/-- The three-file scenario of the statistics claim: an empty file, a
20-line readable file, and a missing path. -/
def demoTwentyLines : String := String.join (List.replicate 20 "line\n")

def demoFs : String → FileState := fun p =>
  if p = "empty.py" then FileState.content ""
  else if p = "code.py" then FileState.content demoTwentyLines
  else FileState.missing

def demoFiles : List String := ["empty.py", "code.py", "missing.py"]

/-- A response that is a single well-formed JSON object (not wrapped
in an array). -/
def bareObjResponse : String :=
  "\x7b\"file\": \"a.py\", \"line\": 5, \"comment\": \"x\", \"severity\": \"High\"\x7d"

/-- The same object wrapped in a JSON array. -/
def arrObjResponse : String := "[" ++ bareObjResponse ++ "]"

/-- An element with a resolvable file path but no comment text. -/
def fileOnlyElement : JValue := JValue.obj [("file", JValue.str "a.py")]

/-- An element with both a comment text and a file path. -/
def bothFieldsElement : JValue :=
  JValue.obj [("comment", JValue.str "x"), ("file", JValue.str "a.py")]

/-- `parse_comment` output for `bothFieldsElement` under the
functionality category (whose default severity is CRITICAL). -/
def demoParsedComment : CodeReviewComment :=
  { category := CodeReviewCategory.functionality, file_name := some "a.py",
    line_number := none, comment := "x",
    severity := SeverityLevel.critical, example_code := none }

/-- A style-category element carrying an explicit CRITICAL severity
and keyword-free text. -/
def namingCriticalElement : JValue :=
  JValue.obj [("comment", JValue.str "x"), ("file", JValue.str "a.py"),
              ("severity", JValue.str "Critical")]

/-- The comment the claims expect for the `a.py` object under a given
category. -/
def expectedObjComment (category : CodeReviewCategory) : CodeReviewComment :=
  { category := category, file_name := some "a.py", line_number := some 5,
    comment := "x", severity := SeverityLevel.high, example_code := none }

/-! ### Theorems -/

theorem virtualDiffGo_invariant (fs : String → FileState) (files : List String) :
    (virtualDiffGo fs files).2.1 + (virtualDiffGo fs files).2.2.1 = files.length := by
  induction files with
  | nil => rfl
  | cons p rest ih =>
    simp only [virtualDiffGo, List.length_cons]
    cases fs p with
    | missing => simpa using by omega
    | unreadable => simpa using by omega
    | content text =>
      by_cases h1 : pyStrip text = ""
      · simp only [h1, if_pos rfl]
        simpa using by omega
      · simp only [if_neg h1]
        by_cases h2 : (pySplitlines text).isEmpty
        · simp only [h2, if_pos rfl]
          simpa using by omega
        · simp only [if_neg h2]
          simpa using by omega

/-- C2: for every input list of relative paths,
`create_virtual_diff` reports `processed_files + skipped_files =
total_files_found` (the input length); and on the concrete three-file
scenario (empty file, 20-line readable file, missing path) it reports
processed 1, skipped 2, total_lines 20. -/
theorem c2_virtual_diff_statistics :
    (∀ (fs : String → FileState) (files : List String),
      (create_virtual_diff fs files).2.total_files_found = files.length ∧
      (create_virtual_diff fs files).2.processed_files +
        (create_virtual_diff fs files).2.skipped_files =
        (create_virtual_diff fs files).2.total_files_found) ∧
    (create_virtual_diff demoFs demoFiles).2 =
      { total_files_found := 3, processed_files := 1, skipped_files := 2,
        total_lines := 20 } := by
  constructor
  · intro fs files
    refine ⟨rfl, ?_⟩
    simpa [create_virtual_diff] using virtualDiffGo_invariant fs files
  · rfl

/-- C7: every comment text containing "sql injection"
(case-insensitively) is forced to CRITICAL by the content-override
step, for every category and every incoming severity. -/
theorem c7_sql_injection_forces_critical
    (category : CodeReviewCategory) (default_severity : SeverityLevel)
    (comment_text : String)
    (h : strContains (pyLower comment_text) "sql injection" = true) :
    adjustSeverityBasedOnContent category comment_text default_severity =
      SeverityLevel.critical := by
  have hany : critical_keywords.any
      (fun k => strContains (pyLower comment_text) k) = true :=
    List.any_eq_true.mpr ⟨"sql injection", by simp [critical_keywords], h⟩
  simp [adjustSeverityBasedOnContent, hany]

theorem c7_witness :
    strContains (pyLower "Possible SQL Injection here") "sql injection" = true ∧
    adjustSeverityBasedOnContent CodeReviewCategory.design
      "Possible SQL Injection here" SeverityLevel.low = SeverityLevel.critical :=
  ⟨by decide, c7_sql_injection_forces_critical _ _ _ (by decide)⟩

/-- C8 (amended): for the NAMING/READABILITY categories, a comment
whose text contains none of the override keywords is capped at
MEDIUM provided its incoming severity is not CRITICAL (a HIGH
incoming severity is downgraded to MEDIUM; CRITICAL passes through
unchanged, see the counterexample). -/
theorem c8_style_category_cap (category : CodeReviewCategory) (text : String)
    (sev : SeverityLevel)
    (hcat : category = CodeReviewCategory.naming ∨
            category = CodeReviewCategory.readability)
    (hc : critical_keywords.any (fun k => strContains (pyLower text) k) = false)
    (hh : high_keywords.any (fun k => strContains (pyLower text) k) = false)
    (hl : low_keywords.any (fun k => strContains (pyLower text) k) = false)
    (hs : sev ≠ SeverityLevel.critical) :
    sevRank (adjustSeverityBasedOnContent category text sev) ≤
      sevRank SeverityLevel.medium := by
  rcases hcat with h | h <;> subst h <;> cases sev <;>
    first
      | exact absurd rfl hs
      | (simp only [adjustSeverityBasedOnContent]
         simp only [hc, hh, hl]
         decide)

/-- C8 counterexample: a NAMING-category element with keyword-free
text "x" and model-supplied severity "Critical" is classified
CRITICAL, which exceeds MEDIUM. -/
theorem c8_counterexample :
    parse_comment CodeReviewCategory.naming namingCriticalElement =
      Except.ok (some { category := CodeReviewCategory.naming,
                        file_name := some "a.py", line_number := none,
                        comment := "x", severity := SeverityLevel.critical,
                        example_code := none }) ∧
    critical_keywords.any (fun k => strContains (pyLower "x") k) = false ∧
    high_keywords.any (fun k => strContains (pyLower "x") k) = false ∧
    low_keywords.any (fun k => strContains (pyLower "x") k) = false ∧
    ¬ sevRank SeverityLevel.critical ≤ sevRank SeverityLevel.medium :=
  ⟨by rfl, by decide, by decide, by decide, by decide⟩

theorem c8_witness :
    sevRank (adjustSeverityBasedOnContent CodeReviewCategory.naming "x"
      SeverityLevel.high) ≤ sevRank SeverityLevel.medium :=
  c8_style_category_cap CodeReviewCategory.naming "x" SeverityLevel.high
    (Or.inl rfl) (by decide) (by decide) (by decide) (by decide)

theorem pyInsertAt_length_append {α : Type} (l₁ l₂ : List α) (a : α) :
    pyInsertAt l₁.length a (l₁ ++ l₂) = l₁ ++ a :: l₂ := by
  induction l₁ with
  | nil => rfl
  | cons x xs ih => simp [pyInsertAt, ih]

theorem take_append_drop_sublist {α : Type} (a b : Nat) (l : List α)
    (hab : a ≤ b) : (l.take a ++ l.drop b).Sublist l := by
  have h1 : l.drop b = (l.drop a).drop (b - a) := by
    rw [List.drop_drop]
    congr 1
    omega
  conv_rhs => rw [← List.take_append_drop a l]
  rw [h1]
  exact (List.append_sublist_append_left _).mpr (List.drop_sublist _ _)

theorem sampleLines_of_gt (fmt : List SampledLine)
    (h : MAX_CODE_LINES < fmt.length) :
    sampleLines fmt =
      fmt.take 50 ++ SampledLine.marker 100 100 ::
        fmt.drop (fmt.length - 50) := by
  have e1 : (fmt.take (MAX_CODE_LINES / 2)).length = 50 := by
    rw [List.length_take]
    simp only [MAX_CODE_LINES] at h ⊢
    omega
  have e2 : (fmt.drop (fmt.length - MAX_CODE_LINES / 2)).length = 50 := by
    rw [List.length_drop]
    simp only [MAX_CODE_LINES] at h ⊢
    omega
  have elen : (fmt.take (MAX_CODE_LINES / 2) ++
      fmt.drop (fmt.length - MAX_CODE_LINES / 2)).length = 100 := by
    rw [List.length_append, e1, e2]
  unfold sampleLines
  rw [if_pos h]
  dsimp only
  rw [e1, e2]
  have hcond : (decide (0 < MAX_CODE_LINES - 50 - 50) &&
      decide (50 + 50 < fmt.length)) = false := by
    simp [MAX_CODE_LINES]
  rw [hcond]
  simp only [Bool.false_eq_true, if_false]
  rw [elen]
  rw [show MAX_CODE_LINES = 100 from rfl, show (100 : Nat) / 2 = 50 from rfl]
  have e1' : (fmt.take 50).length = 50 := by
    rw [List.length_take]
    simp only [MAX_CODE_LINES] at h
    omega
  have key := pyInsertAt_length_append (fmt.take 50)
    (fmt.drop (fmt.length - 50)) (SampledLine.marker 100 100)
  rw [e1'] at key
  exact key

theorem get_sampled_code_lines_of_le (lines : List String)
    (h : lines.length ≤ MAX_CODE_LINES) :
    get_sampled_code_lines lines = lines.map SampledLine.code := by
  unfold get_sampled_code_lines sampleLines
  rw [if_neg (by rw [List.length_map]; omega)]

/-- C1: in diff-review mode with the fixed budget
`B = MAX_CODE_LINES = 100`, `get_sampled_code_lines` returns the
extracted entry list unchanged when its length is at most `B`, and
otherwise returns at most `B + 1` entries containing exactly one
marker, with the kept head and tail entries a sublist (hence in
original relative order) of the input. -/
theorem c1_diff_compactor_bounds (lines : List String) :
    (lines.length ≤ MAX_CODE_LINES →
      get_sampled_code_lines lines = lines.map SampledLine.code) ∧
    (MAX_CODE_LINES < lines.length →
      (get_sampled_code_lines lines).length ≤ MAX_CODE_LINES + 1 ∧
      ((get_sampled_code_lines lines).filter isCodeEntry).Sublist
        (lines.map SampledLine.code) ∧
      ((get_sampled_code_lines lines).filter isMarkerEntry).length = 1) := by
  constructor
  · exact get_sampled_code_lines_of_le lines
  · intro h
    have hlen : (lines.map SampledLine.code).length = lines.length :=
      List.length_map _ _
    have hgt : MAX_CODE_LINES < (lines.map SampledLine.code).length := by
      rw [hlen]; exact h
    have heq : get_sampled_code_lines lines =
        (lines.map SampledLine.code).take 50 ++ SampledLine.marker 100 100 ::
          (lines.map SampledLine.code).drop
            ((lines.map SampledLine.code).length - 50) := by
      unfold get_sampled_code_lines
      exact sampleLines_of_gt _ hgt
    have hmemCode : ∀ a ∈ lines.map SampledLine.code, isCodeEntry a = true := by
      intro a ha
      rcases List.mem_map.mp ha with ⟨x, _, rfl⟩
      rfl
    refine ⟨?_, ?_, ?_⟩
    · rw [heq, List.length_append, List.length_cons, List.length_take,
        List.length_drop, hlen]
      simp only [MAX_CODE_LINES] at h ⊢
      omega
    · rw [heq, List.filter_append]
      have hA : ((lines.map SampledLine.code).take 50).filter isCodeEntry =
          (lines.map SampledLine.code).take 50 :=
        List.filter_eq_self.mpr (fun a ha => hmemCode a (List.take_subset _ _ ha))
      have hB : (((lines.map SampledLine.code)).drop
            ((lines.map SampledLine.code).length - 50)).filter isCodeEntry =
          (lines.map SampledLine.code).drop
            ((lines.map SampledLine.code).length - 50) :=
        List.filter_eq_self.mpr (fun a ha => hmemCode a (List.drop_subset _ _ ha))
      rw [List.filter_cons_of_neg (by simp [isCodeEntry]), hA, hB]
      exact take_append_drop_sublist 50 _ _ (by simp only [MAX_CODE_LINES] at hgt; omega)
    · rw [heq, List.filter_append]
      have hA : ((lines.map SampledLine.code).take 50).filter isMarkerEntry = [] :=
        List.filter_eq_nil_iff.mpr (fun a ha => by
          rcases List.mem_map.mp (List.take_subset _ _ ha) with ⟨x, _, rfl⟩
          simp [isMarkerEntry])
      have hB : (((lines.map SampledLine.code)).drop
            ((lines.map SampledLine.code).length - 50)).filter isMarkerEntry = [] :=
        List.filter_eq_nil_iff.mpr (fun a ha => by
          rcases List.mem_map.mp (List.drop_subset _ _ ha) with ⟨x, _, rfl⟩
          simp [isMarkerEntry])
      rw [List.filter_cons_of_pos (by simp [isMarkerEntry]), hA, hB]
      rfl

theorem c1_witness :
    MAX_CODE_LINES < (List.replicate 150 "x").length ∧
    (get_sampled_code_lines (List.replicate 150 "x")).length ≤
      MAX_CODE_LINES + 1 :=
  ⟨by decide,
   ((c1_diff_compactor_bounds (List.replicate 150 "x")).2 (by decide)).1⟩

/-- C10: at the failing input (150 added lines) the code inserts the
marker `(sampled 100 lines from 100 total)` between head and tail:
the "total" interpolates the length of the already-sampled list (100)
rather than the pre-sampling input length (150). -/
theorem c10_marker_total_is_post_sampling :
    (get_sampled_code_lines (List.replicate 150 "x")).get? 50 =
      some (SampledLine.marker 100 100) ∧
    (List.replicate 150 "x").length = 150 ∧ (150 : Nat) ≠ 100 :=
  ⟨rfl, by decide, by decide⟩

/-- C4 (amended): a bare `[]` and the fenced or quoted empty-array
variants yield an empty comment list (a valid no-issues outcome);
an empty or whitespace-only response instead yields the single
MEDIUM-severity empty-response comment (see the counterexample). -/
theorem c4_explicit_empty_detection :
    (∀ (category : CodeReviewCategory) (s : String),
      pyStrip s ≠ "" → isEmptyJsonArray (pyStrip s) = true →
      parse_llm_response category s = Except.ok []) ∧
    parse_llm_response CodeReviewCategory.functionality "[]" = Except.ok [] ∧
    parse_llm_response CodeReviewCategory.robustness "```json\n[]\n```" =
      Except.ok [] ∧
    parse_llm_response CodeReviewCategory.design "`[]`" = Except.ok [] ∧
    parse_llm_response CodeReviewCategory.functionality "" =
      Except.ok [emptyResponseComment CodeReviewCategory.functionality] := by
  refine ⟨?_, by rfl, by rfl, by rfl, by rfl⟩
  intro category s h1 h2
  simp [parse_llm_response, h1, h2]

/-- C4 counterexample: a whitespace-only response does not yield an
empty list; it yields the single MEDIUM empty-response comment. -/
theorem c4_counterexample :
    parse_llm_response CodeReviewCategory.functionality "   " ≠ Except.ok [] := by
  intro hcontra
  rw [show parse_llm_response CodeReviewCategory.functionality "   " =
      Except.ok [emptyResponseComment CodeReviewCategory.functionality]
    from by rfl] at hcontra
  simp at hcontra

theorem c4_witness :
    pyStrip "[ ]" ≠ "" ∧ isEmptyJsonArray (pyStrip "[ ]") = true ∧
    parse_llm_response CodeReviewCategory.naming "[ ]" = Except.ok [] :=
  ⟨by decide, by decide,
   c4_explicit_empty_detection.1 CodeReviewCategory.naming "[ ]"
     (by decide) (by decide)⟩

/-- C6 (amended): a response that wraps the object
`\x7bfile: "a.py", line: 5, comment: "x", severity: "High"\x7d` in a JSON
array parses, for every category other than NAMING and READABILITY,
to exactly one Comment with file `a.py`, line 5, text `x`, severity
HIGH (for NAMING/READABILITY the classification caps the severity to
MEDIUM; a bare unwrapped object falls through to the text heuristic,
see the counterexample). -/
theorem c6_array_wrapped_object_roundtrip (category : CodeReviewCategory)
    (h1 : category ≠ CodeReviewCategory.naming)
    (h2 : category ≠ CodeReviewCategory.readability) :
    parse_llm_response category arrObjResponse =
      Except.ok [expectedObjComment category] := by
  cases category <;>
    first
      | exact absurd rfl h1
      | exact absurd rfl h2
      | rfl

/-- C6 counterexample: the bare (un-wrapped) JSON object response
does not produce the claimed Comment; strategy 1 aborts on the dict
keys and the text heuristic returns a file-less HIGH comment whose
text is the whole response. -/
theorem c6_counterexample :
    parse_llm_response CodeReviewCategory.functionality bareObjResponse ≠
      Except.ok [expectedObjComment CodeReviewCategory.functionality] := by
  intro hcontra
  rw [show parse_llm_response CodeReviewCategory.functionality bareObjResponse =
      Except.ok [{ category := CodeReviewCategory.functionality,
                   file_name := none, line_number := none,
                   comment := bareObjResponse,
                   severity := SeverityLevel.high, example_code := none }]
    from by rfl] at hcontra
  simp [expectedObjComment] at hcontra

theorem c6_witness :
    parse_llm_response CodeReviewCategory.functionality arrObjResponse =
      Except.ok [expectedObjComment CodeReviewCategory.functionality] :=
  c6_array_wrapped_object_roundtrip CodeReviewCategory.functionality
    (by decide) (by decide)

theorem assembleComment_some (category : CodeReviewCategory) (textStr : String)
    (file_name : Option String) (line_number : Option Int)
    (severity : SeverityLevel) (example_code : Option JValue)
    (c : CodeReviewComment)
    (h : assembleComment category textStr file_name line_number severity
      example_code = some c) :
    c.comment ≠ "" ∧ ∃ s, c.file_name = some s ∧ s ≠ "" := by
  unfold assembleComment at h
  split at h
  · simp at h
  · rename_i hcond
    simp only [Option.some.injEq] at h
    subst h
    simp only [Bool.or_eq_true, decide_eq_true_eq] at hcond
    push_neg at hcond
    refine ⟨hcond.1, ?_⟩
    rcases file_name with _ | sfn
    · exact absurd rfl hcond.2
    · exact ⟨sfn, rfl, by simpa using hcond.2⟩

/-- C9 (amended): during strict JSON extraction an element yields a
Comment only when it has BOTH a truthy resolvable comment text and a
truthy resolvable file path; an element with only one of them is
dropped (the counterexample shows a file-only element being
dropped).  The concrete element with both fields yields a Comment. -/
theorem c9_comment_requires_text_and_file :
    (∀ (category : CodeReviewCategory) (d : JValue) (c : CodeReviewComment),
      parse_comment category d = Except.ok (some c) →
      c.comment ≠ "" ∧ ∃ s, c.file_name = some s ∧ s ≠ "") ∧
    parse_comment CodeReviewCategory.functionality bothFieldsElement =
      Except.ok (some demoParsedComment) := by
  constructor
  · intro category d c h
    unfold parse_comment at h
    dsimp only at h
    repeat' split at h
    all_goals
      try (simp only [Except.ok.injEq] at h
           exact assembleComment_some _ _ _ _ _ _ _ h)
    all_goals simp at h
  · rfl

/-- C9 counterexample: an element with a resolvable file path but no
resolvable comment text is dropped, contradicting the claim that a
resolvable file path alone yields a Comment. -/
theorem c9_counterexample :
    resolveFileRaw fileOnlyElement = Except.ok (some (JValue.str "a.py")) ∧
    parse_comment CodeReviewCategory.functionality fileOnlyElement =
      Except.ok none :=
  ⟨by rfl, by rfl⟩

theorem c9_witness :
    demoParsedComment.comment ≠ "" ∧
    ∃ s, demoParsedComment.file_name = some s ∧ s ≠ "" :=
  c9_comment_requires_text_and_file.1 CodeReviewCategory.functionality
    bothFieldsElement demoParsedComment
    c9_comment_requires_text_and_file.2

end LlmReviewer
